import Mathlib

/-!
Shallow embedding of filament's reference-counted cache
(`src/filament/src/Cache.h`) and its two applications, the material
definition store and the program store
(`src/filament/src/MaterialCache.{h,cpp}`,
`src/filament/src/MaterialDefinition.cpp`), together with proofs of the
specified properties.

The cache's `tsl::robin_map` is modelled as an association list searched
with the map's key-equality predicate; the 32-bit `referenceCount` is a
`Nat` reduced modulo `2^32` wherever the source mutates it.  Fatal
precondition/postcondition failures (`FILAMENT_CHECK_*`) are modelled as
a distinguished outcome (`Option` being reserved for `std::optional`).
-/

namespace Filament

/-- Modulus of the 32-bit unsigned `referenceCount` (`uint32_t`). -/
def U32 : Nat := 4294967296

/-- An entry in the cache (`Cache::Impl`'s `Entry`): a reference count and
the cached value. -/
structure Entry (T : Type) where
  referenceCount : Nat
  value : T
deriving Repr, DecidableEq

/-- The cache's map (`tsl::robin_map<Key, Entry, Hash>`), modelled as an
association list; lookups use the map's key-equality predicate `eqk`. -/
abbrev CMap (Key T : Type) := List (Key × Entry T)

/-- `mMap.find(key, hash)`: the first entry whose key matches `key` under
the map's key equality. -/
def findEntry (eqk : Key → Key → Bool) : CMap Key T → Key → Option (Entry T)
  | [], _ => none
  | (k, e) :: rest, key => if eqk k key then some e else findEntry eqk rest key

/-- In-place overwrite of the matched entry's `referenceCount`
(`it.value().referenceCount = n`). -/
def setCount (eqk : Key → Key → Bool) : CMap Key T → Key → Nat → CMap Key T
  | [], _, _ => []
  | (k, e) :: rest, key, n =>
    if eqk k key then (k, { e with referenceCount := n }) :: rest
    else (k, e) :: setCount eqk rest key n

/-- `mMap.erase(it)`: remove the matched entry. -/
def eraseKey (eqk : Key → Key → Bool) : CMap Key T → Key → CMap Key T
  | [], _ => []
  | (k, e) :: rest, key =>
    if eqk k key then rest else (k, e) :: eraseKey eqk rest key

/-- `Cache::Handle`: back-reference to the owning cache instance (`mImpl`,
`none` when moved-from), a copy of the key (`mKey`) and the precomputed
hash (`mHash`). -/
structure Handle (Key : Type) where
  impl : Option Nat
  key : Key
  hash : Nat
deriving Repr, DecidableEq

/-- Result of `Cache::Impl::get`: the `ReturnValue`
(`std::optional<std::pair<Handle, T&>>`), the map after the call, and
whether the code invoked the factory. -/
structure GetResult (Key T : Type) where
  result : Option (Handle Key × T)
  map : CMap Key T
  factoryInvoked : Bool
deriving Repr, DecidableEq

namespace Impl

/-- `Cache::Impl::get(key, factory)` (Cache.h lines 152-172).  The pure
factory is represented by the `Option T` it would return when invoked.
On a hit the entry's count is incremented and the stored value returned;
on a miss the factory runs, a successful value is inserted with count 1,
and a failed factory leaves the map untouched and yields `std::nullopt`. -/
def get (eqk : Key → Key → Bool) (implId : Nat) (hashFn : Key → Nat)
    (m : CMap Key T) (key : Key) (factory : Option T) : GetResult Key T :=
  let hash := hashFn key
  match findEntry eqk m key with
  | some e =>
    { result := some (⟨some implId, key, hash⟩, e.value)
      map := setCount eqk m key ((e.referenceCount + 1) % U32)
      factoryInvoked := false }
  | none =>
    match factory with
    | some v =>
      { result := some (⟨some implId, key, hash⟩, v)
        map := (key, ⟨1, v⟩) :: m
        factoryInvoked := true }
    | none => { result := none, map := m, factoryInvoked := true }

/-- `Cache::Impl::acquire` (Cache.h lines 183-186): increment through
`at`, whose `FILAMENT_CHECK_PRECONDITION` is fatal when the entry is
missing (modelled as `none`). -/
def acquire (eqk : Key → Key → Bool) (m : CMap Key T) (key : Key) :
    Option (CMap Key T) :=
  match findEntry eqk m key with
  | some e => some (setCount eqk m key ((e.referenceCount + 1) % U32))
  | none => none

/-- `Cache::Impl::release` (Cache.h lines 188-195): pre-decrement the
count (32-bit); erase the entry the moment it reaches zero.  `none`
models the fatal missing-entry precondition inside `at`. -/
def release (eqk : Key → Key → Bool) (m : CMap Key T) (key : Key) :
    Option (CMap Key T) :=
  match findEntry eqk m key with
  | some e =>
    let c := (e.referenceCount + (U32 - 1)) % U32
    if c = 0 then some (eraseKey eqk m key) else some (setCount eqk m key c)
  | none => none

/-- Outcome of running `Cache::Impl::~Impl`. -/
inductive DtorOutcome
  | ok
  | fatal
deriving Repr, DecidableEq

/-- `Cache::Impl::~Impl` (Cache.h lines 146-150):
`FILAMENT_CHECK_PRECONDITION(mMap.empty())`. -/
def dtor (m : CMap Key T) : DtorOutcome :=
  if m.isEmpty then .ok else .fatal

end Impl

/-- `Handle::~Handle` (Cache.h lines 108-112): release unless moved-from. -/
def Handle.dtorRun (eqk : Key → Key → Bool) (m : CMap Key T)
    (h : Handle Key) : Option (CMap Key T) :=
  match h.impl with
  | some _ => Impl.release eqk m h.key
  | none => some m

/-- `Handle::Handle(const Handle&)` (Cache.h lines 84-91): copy the three
fields, acquire when non-empty. -/
def Handle.copyCtor (eqk : Key → Key → Bool) (m : CMap Key T)
    (h : Handle Key) : Option (CMap Key T × Handle Key) :=
  match h.impl with
  | some _ =>
    match Impl.acquire eqk m h.key with
    | some m1 => some (m1, h)
    | none => none
  | none => some (m, h)

/-- `Handle::operator=(Handle&&)` (Cache.h lines 76-82): overwrite
`mImpl/mKey/mHash` with the source's fields and null the source.  The
source code performs no release of the left-hand side's previous entry.
Returns (map, new lhs, new rhs). -/
def assignMove (m : CMap Key T) (_lhs rhs : Handle Key) :
    CMap Key T × Handle Key × Handle Key :=
  (m, ⟨rhs.impl, rhs.key, rhs.hash⟩, { rhs with impl := none })

/-- `Handle::operator=(const Handle&)` (Cache.h lines 93-106): release the
old target when non-empty, then acquire the new one when non-empty, then
copy the fields.  For self-assignment pass the same handle for `lhs` and
`rhs` (release mutates only the map, so `rhs`'s fields read afterwards
are unchanged, exactly as in the aliased C++ call).  `none` models a
fatal missing-entry precondition inside either `release` or `acquire`. -/
def assignCopy (eqk : Key → Key → Bool) (m : CMap Key T)
    (lhs rhs : Handle Key) : Option (CMap Key T × Handle Key) :=
  let step1 : Option (CMap Key T) :=
    match lhs.impl with
    | some _ => Impl.release eqk m lhs.key
    | none => some m
  match step1 with
  | none => none
  | some m1 =>
    let step2 : Option (CMap Key T) :=
      match rhs.impl with
      | some _ => Impl.acquire eqk m1 rhs.key
      | none => some m1
    match step2 with
    | none => none
    | some m2 => some (m2, ⟨rhs.impl, rhs.key, rhs.hash⟩)

/-- `Handle::operator==` (Cache.h lines 117-119): compare the cache
back-reference and the key only (never the hash, never the value's
address). -/
def handleEq [DecidableEq Key] (a b : Handle Key) : Bool :=
  decide (a.impl = b.impl) && decide (a.key = b.key)

/-! ## Material definition store (`MaterialDefinition.cpp`, `MaterialCache.cpp`) -/

/-- `MaterialParser::ParseResult` (only the distinctions the code under
`src/` branches on). -/
inductive ParseResult
  | success
  | errorMissingBackend
  | errorOther
deriving Repr, DecidableEq

/-- `backend::Backend`, reduced to the only distinction tested by the code
under `src/`: `NOOP` versus any concrete backend. -/
inductive Backend
  | noop
  | concrete
deriving Repr, DecidableEq

/-- Observable outputs of the external `MaterialParser` collaborator for a
given payload: the results of `parse()`, `getCacheId`,
`getMaterialVersion`, `getMaterialCrc32` and `getShaderModels` that the
code under `src/` consumes.  (The parser itself is an external
collaborator; these are the values its getters yield.) -/
structure ParserData where
  parseResult : ParseResult
  cacheIdOk : Bool
  cacheId : Nat
  materialVersion : Nat
  materialCrc32 : Nat
  shaderModels : Nat
deriving Repr, DecidableEq

/-- A computation that may hit a `FILAMENT_CHECK_*` fatal failure
(process abort) rather than return. -/
inductive Fatalable (α : Type)
  | fatal
  | ok (val : α)
deriving Repr, DecidableEq

/-- `MaterialDefinition::createParser` (MaterialDefinition.cpp lines
32-70).  A missing-backend parse result trips a fatal postcondition; a
`NOOP` backend then returns the parser without further checks; any other
parse failure and a material-version mismatch each trip a fatal
postcondition.  `matVersion` stands for the `MATERIAL_VERSION` constant
(declared outside `src/`).  Note the function never returns a null
parser: every non-fatal path returns it. -/
def createParser (backend : Backend) (matVersion : Nat) (p : ParserData) :
    Fatalable ParserData :=
  if p.parseResult = .errorMissingBackend then .fatal
  else if backend = .noop then .ok p
  else if p.parseResult ≠ .success then .fatal
  else if p.materialVersion ≠ matVersion then .fatal
  else .ok p

/-- The parsed definition record.  Its many derived fields (raster state,
interface blocks, descriptor layouts) play no role in the cache claims;
the record is identified by the cache id the constructor reads back via
`parser->getCacheId(&mCacheId)`. -/
structure MaterialDefinition where
  cacheId : Nat
deriving Repr, DecidableEq

/-- `MaterialDefinition::create` (MaterialDefinition.cpp lines 72-140).
`checkCrc32` is `engine.features.material.check_crc32_after_loading`;
`crc32OfPayload` stands for the externally computed
`hash::crc32Update(0, payload, originalSize, table)`; `engineShaderModel`
is the bit index of the engine's `ShaderModel`.  The crc check runs only
under the feature flag and yields `std::nullopt` on mismatch; a shader
model absent from the package's bitset also yields `std::nullopt`; the
stereoscopic check only logs a warning and never affects the result. -/
def MaterialDefinition.create (checkCrc32 : Bool) (crc32OfPayload : Nat)
    (engineShaderModel : Nat) (p : ParserData) : Option MaterialDefinition :=
  if checkCrc32 && decide (p.materialCrc32 ≠ crc32OfPayload) then none
  else if !(p.shaderModels.testBit engineShaderModel) then none
  else some ⟨p.cacheId⟩

/-- The engine state consumed by the definition path: backend, the
`material.check_crc32_after_loading` feature flag and the engine's shader
model bit index. -/
structure Engine where
  backend : Backend
  checkCrc32AfterLoading : Bool
  shaderModel : Nat
deriving Repr, DecidableEq

/-- `std::hash<uint64_t>` used by the definition cache
(`Cache<uint64_t, MaterialDefinition>`), external to `src/`; the identity
on the key value, as in the common library implementations. -/
def hashU64 (n : Nat) : Nat := n

/-- `MaterialCache::getDefinition` (MaterialCache.cpp lines 56-75):
build the parser (fatal checks included); the source's null-parser check
is vacuous because `createParser` returns the parser on every non-fatal
path; a failed `getCacheId` returns `std::nullopt` without touching the
cache; otherwise delegate to the generic cache's `get` with the cache id
as key and `MaterialDefinition::create` as the factory. -/
def getDefinition (eng : Engine) (matVersion : Nat) (p : ParserData)
    (crc32OfPayload : Nat) (m : CMap Nat MaterialDefinition) :
    Fatalable (GetResult Nat MaterialDefinition) :=
  match createParser eng.backend matVersion p with
  | .fatal => .fatal
  | .ok parserData =>
    if !parserData.cacheIdOk then
      .ok { result := none, map := m, factoryInvoked := false }
    else
      .ok (Impl.get (fun a b => a == b) 0 hashU64 m parserData.cacheId
        (MaterialDefinition.create eng.checkCrc32AfterLoading crc32OfPayload
          eng.shaderModel parserData))

/-! ## Program store and Specialization (`MaterialCache.{h,cpp}`) -/

/-- `backend::Program::SpecializationConstant`: an id and a value (the
C++ value is a `std::variant<int32_t, float, bool>`, modelled
abstractly as a `Nat` code). -/
structure SpecializationConstant where
  id : Nat
  value : Nat
deriving Repr, DecidableEq

/-- `backend::Program::PushConstant`: a name and a constant type. -/
structure PushConstant where
  name : String
  type : Nat
deriving Repr, DecidableEq

/-- `MaterialCache::Specialization` (MaterialCache.h lines 42-56): a
definition handle, the variant key (`Variant::key`, a `uint8_t`), the
ordered specialization constants, and the per-shader-stage ordered push
constants (`std::array<FixedCapacityVector<PushConstant>,
SHADER_TYPE_COUNT>`, modelled as a list of stage lists). -/
structure Specialization where
  definition : Handle Nat
  variant : Nat
  specializationConstants : List SpecializationConstant
  pushConstants : List (List PushConstant)
deriving Repr, DecidableEq

/-- `MaterialCache::Specialization::operator==` (MaterialCache.cpp lines
47-52): all four fields compare equal, the embedded handle via
`Handle::operator==`. -/
def Specialization.eq (a b : Specialization) : Bool :=
  handleEq a.definition b.definition && decide (a.variant = b.variant) &&
  decide (a.specializationConstants = b.specializationConstants) &&
  decide (a.pushConstants = b.pushConstants)

/-- Modelled from the spec: `utils::hash::combine_fast` (utils/Hash.h is
not under `src/`); per spec section 3 the hash is "a deterministic
combination … combined order-sensitively", modelled as a standard
order-sensitive 64-bit seed mixer. -/
def combineFast (seed h : Nat) : Nat :=
  (seed ^^^ (h + 2654435769 + seed * 64 + seed / 4)) % 18446744073709551616

/-- Modelled from the spec: `utils::CString::Hasher` (not under `src/`),
a deterministic hash of the name's characters. -/
def cstringHash (s : String) : Nat :=
  s.data.foldl (fun a c => (a * 31 + c.toNat) % 18446744073709551616) 5381

/-- `MaterialCache::Specialization::Hash::operator()` (MaterialCache.cpp
lines 29-45): fold, in order, the definition handle's stored hash
(`definition.getHash()`), the variant key, each specialization
constant's id then value, then each push constant's name hash and
type. -/
def Specialization.hashOf (s : Specialization) : Nat :=
  let seed := combineFast 0 s.definition.hash
  let seed := combineFast seed s.variant
  let seed := s.specializationConstants.foldl
    (fun sd c => combineFast (combineFast sd c.id) c.value) seed
  s.pushConstants.foldl
    (fun sd stage => stage.foldl
      (fun sd2 it => combineFast (combineFast sd2 (cstringHash it.name)) it.type)
      sd)
    seed

/-- `MaterialCache::Program = backend::Handle<backend::HwProgram>`: an
opaque backend handle id; `Program{}` default-constructs the null
handle. -/
structure Program where
  id : Nat
deriving Repr, DecidableEq

/-- `Program{}`: the default-constructed (null) backend program handle. -/
def defaultProgram : Program := ⟨0⟩

/-- `backend::CompilerPriorityQueue`. -/
inductive CompilerPriorityQueue
  | high
  | low
deriving Repr, DecidableEq

/-- `MaterialCache::getProgram` (MaterialCache.cpp lines 77-83):
delegates to the program cache's `get` with the specialization as key and
the factory `[]() { return Program{}; }` — which unconditionally returns
a default-constructed program and never invokes backend compilation; the
`priorityQueue` argument is unused. -/
def getProgram (m : CMap Specialization Program) (spec : Specialization)
    (_priorityQueue : CompilerPriorityQueue) : GetResult Specialization Program :=
  Impl.get Specialization.eq 1 Specialization.hashOf m spec (some defaultProgram)

/-! ## Basic lemmas about the map operations -/

theorem findEntry_setCount (eqk : Key → Key → Bool) (m : CMap Key T)
    (key : Key) (n : Nat) :
    findEntry eqk (setCount eqk m key n) key =
      (findEntry eqk m key).map fun e => { e with referenceCount := n } := by
  induction m with
  | nil => rfl
  | cons p rest ih =>
    obtain ⟨k, e⟩ := p
    cases h : eqk k key with
    | true => simp [findEntry, setCount, h]
    | false => simp [findEntry, setCount, h, ih]

theorem mem_setCount (eqk : Key → Key → Bool) (m : CMap Key T)
    (key : Key) (n : Nat) (p : Key × Entry T) (hp : p ∈ setCount eqk m key n) :
    p ∈ m ∨ ∃ q ∈ m, p = (q.1, { q.2 with referenceCount := n }) := by
  induction m with
  | nil => simp [setCount] at hp
  | cons q rest ih =>
    obtain ⟨k, e⟩ := q
    cases h : eqk k key with
    | true =>
      simp only [setCount, h, if_pos, List.mem_cons] at hp
      cases hp with
      | inl h1 => exact Or.inr ⟨(k, e), List.mem_cons_self _ _, h1⟩
      | inr h2 => exact Or.inl (List.mem_cons_of_mem _ h2)
    | false =>
      simp only [setCount, h, Bool.false_eq_true, if_neg] at hp
      cases hp with
      | head => exact Or.inl (List.mem_cons_self _ _)
      | tail _ h2 =>
        cases ih h2 with
        | inl h3 => exact Or.inl (List.mem_cons_of_mem _ h3)
        | inr h4 =>
          obtain ⟨q, hq, hq2⟩ := h4
          exact Or.inr ⟨q, List.mem_cons_of_mem _ hq, hq2⟩

theorem mem_eraseKey (eqk : Key → Key → Bool) (m : CMap Key T)
    (key : Key) (p : Key × Entry T) (hp : p ∈ eraseKey eqk m key) : p ∈ m := by
  induction m with
  | nil => simp [eraseKey] at hp
  | cons q rest ih =>
    obtain ⟨k, e⟩ := q
    cases h : eqk k key with
    | true =>
      simp only [eraseKey, h, if_pos] at hp
      exact List.mem_cons_of_mem _ hp
    | false =>
      simp only [eraseKey, h, Bool.false_eq_true, if_neg] at hp
      cases hp with
      | head => exact List.mem_cons_self _ _
      | tail _ h2 => exact List.mem_cons_of_mem _ (ih h2)

/-- The 32-bit pre-decrement `--referenceCount` on a representable
positive count is an ordinary decrement. -/
theorem dec32_eq (c : Nat) (h1 : 1 ≤ c) (h2 : c < U32) :
    (c + (U32 - 1)) % U32 = c - 1 := by
  have hU : U32 = 4294967296 := rfl
  rw [hU] at h2 ⊢
  omega

/-! ## Claim C1 -/

/-- Claim C1: at-most-one live instance per key — when `key` is present in
the cache, `get(key, factory)` does not invoke the factory, increments
that entry's `referenceCount` by exactly one, and returns the existing
stored value (together with a fresh handle on this cache). -/
theorem claim_C1 (eqk : Key → Key → Bool) (implId : Nat) (hashFn : Key → Nat)
    (m : CMap Key T) (key : Key) (factory : Option T) (e : Entry T)
    (hfind : findEntry eqk m key = some e)
    (hcap : e.referenceCount + 1 < U32) :
    (Impl.get eqk implId hashFn m key factory).factoryInvoked = false ∧
    (Impl.get eqk implId hashFn m key factory).result =
      some (⟨some implId, key, hashFn key⟩, e.value) ∧
    findEntry eqk (Impl.get eqk implId hashFn m key factory).map key =
      some ⟨e.referenceCount + 1, e.value⟩ := by
  refine ⟨?_, ?_, ?_⟩ <;> simp only [Impl.get, hfind]
  rw [findEntry_setCount, hfind, Nat.mod_eq_of_lt hcap]
  rfl

/-- Witness for claim C1 at a concrete cache state. -/
theorem claim_C1_witness :
    (Impl.get (fun a b : Nat => a == b) 0 hashU64 [(5, ⟨2, 10⟩)] 5
        (some 99)).factoryInvoked = false ∧
    (Impl.get (fun a b : Nat => a == b) 0 hashU64 [(5, ⟨2, 10⟩)] 5
        (some 99)).result = some (⟨some 0, 5, hashU64 5⟩, 10) ∧
    findEntry (fun a b : Nat => a == b)
        (Impl.get (fun a b : Nat => a == b) 0 hashU64 [(5, ⟨2, 10⟩)] 5
          (some 99)).map 5 = some ⟨3, 10⟩ :=
  claim_C1 (fun a b : Nat => a == b) 0 hashU64 [(5, ⟨2, 10⟩)] 5 (some 99)
    ⟨2, 10⟩ (by decide) (by decide)

/-! ## Claim C3 -/

/-- Claim C3: failed construction is never cached and is retryable — for a
key absent from the cache, a failing factory makes `get` return no result
with the cache state unchanged, and a subsequent `get` with a successful
factory inserts a fresh entry with `referenceCount = 1` and returns its
value. -/
theorem claim_C3 (eqk : Key → Key → Bool) (implId : Nat) (hashFn : Key → Nat)
    (m : CMap Key T) (key : Key) (v : T)
    (hfind : findEntry eqk m key = none) (hrefl : eqk key key = true) :
    Impl.get eqk implId hashFn m key none =
      { result := none, map := m, factoryInvoked := true } ∧
    (Impl.get eqk implId hashFn m key (some v)).result =
      some (⟨some implId, key, hashFn key⟩, v) ∧
    (Impl.get eqk implId hashFn m key (some v)).factoryInvoked = true ∧
    findEntry eqk (Impl.get eqk implId hashFn m key (some v)).map key =
      some ⟨1, v⟩ := by
  refine ⟨?_, ?_, ?_, ?_⟩ <;> simp [Impl.get, hfind, findEntry, hrefl]

/-- Witness for claim C3 at a concrete cache state. -/
theorem claim_C3_witness :
    Impl.get (fun a b : Nat => a == b) 0 hashU64 [(4, ⟨1, 8⟩)] 5 none =
      { result := none, map := [(4, ⟨1, 8⟩)], factoryInvoked := true } ∧
    (Impl.get (fun a b : Nat => a == b) 0 hashU64 [(4, ⟨1, 8⟩)] 5
        (some 42)).result = some (⟨some 0, 5, hashU64 5⟩, 42) ∧
    (Impl.get (fun a b : Nat => a == b) 0 hashU64 [(4, ⟨1, 8⟩)] 5
        (some 42)).factoryInvoked = true ∧
    findEntry (fun a b : Nat => a == b)
        (Impl.get (fun a b : Nat => a == b) 0 hashU64 [(4, ⟨1, 8⟩)] 5
          (some 42)).map 5 = some ⟨1, 42⟩ :=
  claim_C3 (fun a b : Nat => a == b) 0 hashU64 [(4, ⟨1, 8⟩)] 5 42
    (by decide) (by decide)

/-! ## Claim C2: machinery -/

/-- Map well-formedness: every entry present in the map has a positive
(and 32-bit representable) `referenceCount` — the model form of the
invariant "an entry exists in the map iff `referenceCount > 0`". -/
def wfCounts (m : CMap Key T) : Prop :=
  ∀ p ∈ m, 1 ≤ p.2.referenceCount ∧ p.2.referenceCount < U32

instance (m : CMap Key T) : Decidable (wfCounts m) :=
  inferInstanceAs
    (Decidable (∀ p ∈ m, 1 ≤ p.2.referenceCount ∧ p.2.referenceCount < U32))

theorem findEntry_mem (eqk : Key → Key → Bool) (m : CMap Key T) (key : Key)
    (e : Entry T) (h : findEntry eqk m key = some e) : ∃ k2, (k2, e) ∈ m := by
  induction m with
  | nil => simp [findEntry] at h
  | cons q rest ih =>
    obtain ⟨k, e2⟩ := q
    cases hh : eqk k key with
    | true =>
      simp only [findEntry, hh, if_pos, Option.some.injEq] at h
      exact ⟨k, by rw [← h]; exact List.mem_cons_self _ _⟩
    | false =>
      simp only [findEntry, hh, Bool.false_eq_true, if_neg] at h
      obtain ⟨k2, hk⟩ := ih h
      exact ⟨k2, List.mem_cons_of_mem _ hk⟩

/-- `get` preserves the positivity invariant, provided the hit entry's
32-bit count has headroom to be incremented. -/
theorem wfCounts_get (eqk : Key → Key → Bool) (implId : Nat)
    (hashFn : Key → Nat) (m : CMap Key T) (key : Key) (factory : Option T)
    (hwf : wfCounts m)
    (hcap : ∀ e, findEntry eqk m key = some e → e.referenceCount + 1 < U32) :
    wfCounts (Impl.get eqk implId hashFn m key factory).map := by
  cases hfind : findEntry eqk m key with
  | some e =>
    simp only [Impl.get, hfind]
    intro p hp
    cases mem_setCount eqk m key _ p hp with
    | inl h1 => exact hwf p h1
    | inr h2 =>
      obtain ⟨q, hq, hq2⟩ := h2
      have hc := hcap e hfind
      rw [hq2]
      refine ⟨?_, ?_⟩ <;> simp only [Nat.mod_eq_of_lt hc]
      · exact Nat.le_add_left 1 _
      · exact hc
  | none =>
    cases factory with
    | some v =>
      simp only [Impl.get, hfind]
      intro p hp
      cases hp with
      | head =>
        refine ⟨le_refl 1, ?_⟩
        show (1 : Nat) < U32
        decide
      | tail _ h2 => exact hwf p h2
    | none => simpa only [Impl.get, hfind] using hwf

/-- `release` preserves the positivity invariant. -/
theorem wfCounts_release (eqk : Key → Key → Bool) (m : CMap Key T)
    (key : Key) (m2 : CMap Key T) (hwf : wfCounts m)
    (hrel : Impl.release eqk m key = some m2) : wfCounts m2 := by
  unfold Impl.release at hrel
  cases hfind : findEntry eqk m key with
  | none => rw [hfind] at hrel; exact absurd hrel (by simp)
  | some e =>
    rw [hfind] at hrel
    obtain ⟨k2, hk2⟩ := findEntry_mem eqk m key e hfind
    have he1 : 1 ≤ e.referenceCount := (hwf (k2, e) hk2).1
    have he2 : e.referenceCount < U32 := (hwf (k2, e) hk2).2
    have hd : (e.referenceCount + (U32 - 1)) % U32 = e.referenceCount - 1 :=
      dec32_eq _ he1 he2
    simp only [hd] at hrel
    split at hrel
    case isTrue h1 =>
      cases hrel
      intro p hp
      exact hwf p (mem_eraseKey eqk m key p hp)
    case isFalse h1 =>
      cases hrel
      intro p hp
      cases mem_setCount eqk m key _ p hp with
      | inl h2 => exact hwf p h2
      | inr h3 =>
        obtain ⟨q, hq, hq2⟩ := h3
        rw [hq2]
        have h4 : 1 ≤ e.referenceCount - 1 := by omega
        have h5 : e.referenceCount - 1 < U32 := by omega
        exact ⟨h4, h5⟩

/-- Iterated `get` from the single-cache model with an always-successful
factory (the spec scenario's acquisition of `n` handles for key `k`). -/
def getN (k : Nat) (v : T) : Nat → CMap Nat T → CMap Nat T
  | 0, m => m
  | n+1, m => getN k v n (Impl.get (fun a b : Nat => a == b) 0 hashU64 m k (some v)).map

/-- Iterated release of `n` handles for key `k` (releases never hit the
fatal path in the scenario, so the fatal case is mapped to the identity). -/
def releaseN (k : Nat) : Nat → CMap Nat T → CMap Nat T
  | 0, m => m
  | n+1, m => releaseN k n ((Impl.release (fun a b : Nat => a == b) m k).getD m)

theorem getN_single (k : Nat) (v : T) (n : Nat) :
    ∀ c, 1 ≤ c → c + n < U32 →
      getN k v n [(k, ⟨c, v⟩)] = [(k, ⟨c + n, v⟩)] := by
  induction n with
  | zero => intro c _ _; simp [getN]
  | succ n ih =>
    intro c h1 h2
    have hlt : c + 1 < U32 := by
      have hU : U32 = 4294967296 := rfl
      rw [hU] at h2 ⊢
      omega
    have hstep :
        (Impl.get (fun a b : Nat => a == b) 0 hashU64 [(k, ⟨c, v⟩)] k
          (some v)).map = [(k, ⟨c + 1, v⟩)] := by
      simp only [Impl.get, findEntry, beq_self_eq_true, if_pos, setCount,
        Nat.mod_eq_of_lt hlt]
    have harith : c + 1 + n = c + (n + 1) := by omega
    rw [getN, hstep, ih (c + 1) (by omega) (by omega), harith]

theorem releaseN_single (k : Nat) (v : T) (n : Nat) :
    ∀ c, n < c → c < U32 →
      releaseN k n [(k, ⟨c, v⟩)] = [(k, ⟨c - n, v⟩)] := by
  induction n with
  | zero => intro c _ _; simp [releaseN]
  | succ n ih =>
    intro c h1 h2
    have hd : (c + (U32 - 1)) % U32 = c - 1 := dec32_eq c (by omega) h2
    have hne : ¬(c - 1 = 0) := by omega
    have hstep :
        (Impl.release (fun a b : Nat => a == b) [(k, ⟨c, v⟩)] k).getD
          [(k, ⟨c, v⟩)] = [(k, ⟨c - 1, v⟩)] := by
      simp only [Impl.release, findEntry, beq_self_eq_true, if_pos, hd,
        if_neg hne, setCount, Option.getD_some]
    have harith : c - 1 - n = c - (n + 1) := by omega
    rw [releaseN, hstep, ih (c - 1) (by omega) (by omega), harith]

/-- Releasing the last handle for `k` erases the entry in the same call. -/
theorem release_last (k : Nat) (v : T) :
    Impl.release (fun a b : Nat => a == b) [(k, ⟨1, v⟩)] k = some [] := by
  have hz : (1 + (U32 - 1)) % U32 = 0 := by
    have hU : U32 = 4294967296 := rfl
    rw [hU]
  simp only [Impl.release, findEntry, beq_self_eq_true, if_pos, hz,
    eraseKey, reduceIte]

/-! ## Claim C2 -/

/-- Claim C2: entry-iff-positive-refcount with synchronous eviction — new
entries are inserted with `referenceCount = 1`; a release decrements the
count and, the instant it reaches zero, erases the entry in the same
call; `get` and `release` preserve the positivity invariant; and in the
N-handle scenario, after `n` acquisitions and `n - 1` releases the entry
is still present with count 1 and a further `get` skips the factory,
while after the `n`-th release the entry is gone and a further `get`
invokes the factory again. -/
theorem claim_C2 :
    (∀ (Key T : Type) (eqk : Key → Key → Bool) (implId : Nat)
      (hashFn : Key → Nat) (m : CMap Key T) (key : Key) (v : T),
      findEntry eqk m key = none →
      Impl.get eqk implId hashFn m key (some v) =
        { result := some (⟨some implId, key, hashFn key⟩, v)
          map := (key, ⟨1, v⟩) :: m
          factoryInvoked := true }) ∧
    (∀ (Key T : Type) (eqk : Key → Key → Bool) (m : CMap Key T) (key : Key)
      (e : Entry T), findEntry eqk m key = some e →
      2 ≤ e.referenceCount → e.referenceCount < U32 →
      Impl.release eqk m key =
        some (setCount eqk m key (e.referenceCount - 1))) ∧
    (∀ (Key T : Type) (eqk : Key → Key → Bool) (m : CMap Key T) (key : Key)
      (e : Entry T), findEntry eqk m key = some e → e.referenceCount = 1 →
      Impl.release eqk m key = some (eraseKey eqk m key)) ∧
    (∀ (Key T : Type) (eqk : Key → Key → Bool) (implId : Nat)
      (hashFn : Key → Nat) (m : CMap Key T) (key : Key) (factory : Option T),
      wfCounts m →
      (∀ e, findEntry eqk m key = some e → e.referenceCount + 1 < U32) →
      wfCounts (Impl.get eqk implId hashFn m key factory).map) ∧
    (∀ (Key T : Type) (eqk : Key → Key → Bool) (m : CMap Key T) (key : Key)
      (m2 : CMap Key T), wfCounts m → Impl.release eqk m key = some m2 →
      wfCounts m2) ∧
    (∀ (T : Type) (v : T) (k n : Nat), 1 ≤ n → n < U32 →
      getN k v n [] = [(k, ⟨n, v⟩)] ∧
      releaseN k (n - 1) (getN k v n []) = [(k, ⟨1, v⟩)] ∧
      (Impl.get (fun a b : Nat => a == b) 0 hashU64
        (releaseN k (n - 1) (getN k v n [])) k (some v)).factoryInvoked
          = false ∧
      Impl.release (fun a b : Nat => a == b)
        (releaseN k (n - 1) (getN k v n [])) k = some [] ∧
      (Impl.get (fun a b : Nat => a == b) 0 hashU64 ([] : CMap Nat T) k
        (some v)).factoryInvoked = true) := by
  refine ⟨?_, ?_, ?_, ?_, ?_, ?_⟩
  · intro Key T eqk implId hashFn m key v hfind
    simp [Impl.get, hfind]
  · intro Key T eqk m key e hfind h2 hU
    have hd : (e.referenceCount + (U32 - 1)) % U32 = e.referenceCount - 1 :=
      dec32_eq _ (by omega) hU
    simp only [Impl.release, hfind, hd, if_neg (by omega : ¬(e.referenceCount - 1 = 0))]
  · intro Key T eqk m key e hfind h1
    have hd : (e.referenceCount + (U32 - 1)) % U32 = 0 := by
      rw [h1]
      have hU : U32 = 4294967296 := rfl
      rw [hU]
    simp only [Impl.release, hfind, hd, reduceIte]
  · intro Key T eqk implId hashFn m key factory hwf hcap
    exact wfCounts_get eqk implId hashFn m key factory hwf hcap
  · intro Key T eqk m key m2 hwf hrel
    exact wfCounts_release eqk m key m2 hwf hrel
  · intro T v k n h1 h2
    have hU : U32 = 4294967296 := rfl
    have hfirst :
        (Impl.get (fun a b : Nat => a == b) 0 hashU64 ([] : CMap Nat T) k
          (some v)).map = [(k, ⟨1, v⟩)] := by
      simp [Impl.get, findEntry]
    have hgetN : getN k v n [] = [(k, ⟨n, v⟩)] := by
      obtain ⟨n2, rfl⟩ : ∃ n2, n = n2 + 1 := ⟨n - 1, by omega⟩
      have harith2 : 1 + n2 = n2 + 1 := Nat.add_comm 1 n2
      rw [getN, hfirst, getN_single k v n2 1 (le_refl 1) (by omega), harith2]
    have hrelN : releaseN k (n - 1) (getN k v n []) = [(k, ⟨1, v⟩)] := by
      have hstep := releaseN_single k v (n - 1) n (by omega) h2
      have harith3 : n - (n - 1) = 1 := by omega
      rw [hgetN, hstep, harith3]
    refine ⟨hgetN, hrelN, ?_, ?_, ?_⟩
    · rw [hrelN]
      simp [Impl.get, findEntry]
    · rw [hrelN]
      exact release_last k v
    · simp [Impl.get, findEntry]

/-- Witness for claim C2 at concrete cache states (with `n = 3`). -/
theorem claim_C2_witness :
    Impl.get (fun a b : Nat => a == b) 0 hashU64 ([] : CMap Nat Nat) 7
        (some 5) =
      { result := some (⟨some 0, 7, hashU64 7⟩, 5)
        map := [(7, ⟨1, 5⟩)]
        factoryInvoked := true } ∧
    Impl.release (fun a b : Nat => a == b) [(7, ⟨2, 5⟩)] 7 =
      some (setCount (fun a b : Nat => a == b) [(7, ⟨2, 5⟩)] 7 1) ∧
    Impl.release (fun a b : Nat => a == b) [(7, ⟨1, 5⟩)] 7 =
      some (eraseKey (fun a b : Nat => a == b) [(7, ⟨1, 5⟩)] 7) ∧
    wfCounts
      (Impl.get (fun a b : Nat => a == b) 0 hashU64 ([] : CMap Nat Nat) 7
        (some 5)).map ∧
    wfCounts [(7, (⟨1, 5⟩ : Entry Nat))] ∧
    (getN 7 (5 : Nat) 3 [] = [(7, ⟨3, 5⟩)] ∧
      releaseN 7 2 (getN 7 (5 : Nat) 3 []) = [(7, ⟨1, 5⟩)] ∧
      (Impl.get (fun a b : Nat => a == b) 0 hashU64
        (releaseN 7 2 (getN 7 (5 : Nat) 3 [])) 7 (some 5)).factoryInvoked
          = false ∧
      Impl.release (fun a b : Nat => a == b)
        (releaseN 7 2 (getN 7 (5 : Nat) 3 [])) 7 = some [] ∧
      (Impl.get (fun a b : Nat => a == b) 0 hashU64 ([] : CMap Nat Nat) 7
        (some 5)).factoryInvoked = true) :=
  ⟨claim_C2.1 Nat Nat _ 0 hashU64 [] 7 5 (by decide),
    claim_C2.2.1 Nat Nat _ [(7, ⟨2, 5⟩)] 7 ⟨2, 5⟩ (by decide) (by decide)
      (by decide),
    claim_C2.2.2.1 Nat Nat _ [(7, ⟨1, 5⟩)] 7 ⟨1, 5⟩ (by decide) (by decide),
    claim_C2.2.2.2.1 Nat Nat _ 0 hashU64 [] 7 (some 5) (by decide)
      (by intro e he; simp [findEntry] at he),
    claim_C2.2.2.2.2.1 Nat Nat (fun a b : Nat => a == b) [(7, ⟨2, 5⟩)] 7
      [(7, ⟨1, 5⟩)] (by decide) (by decide),
    claim_C2.2.2.2.2.2 Nat 5 7 3 (by decide) (by decide)⟩

/-! ## Claim C8 -/

/-- Claim C8: teardown contract — destroying a cache whose map is empty
succeeds silently, and destroying one while at least one entry remains
trips the fatal `FILAMENT_CHECK_PRECONDITION`. -/
theorem claim_C8 :
    (∀ (Key T : Type), Impl.dtor ([] : CMap Key T) = .ok) ∧
    (∀ (Key T : Type) (k : Key) (e : Entry T) (rest : CMap Key T),
      Impl.dtor ((k, e) :: rest) = .fatal) := by
  exact ⟨fun _ _ => rfl, fun _ _ _ _ _ => rfl⟩

/-! ## Claim C4 -/

/-- Claim C4 evaluated on the code (code bug): move-assigning the handle
for key 9 onto a live non-empty handle for key 7 (entry with
referenceCount 1) leaves the map — in particular entry 7's
referenceCount — completely unchanged, because `operator=(Handle&&)`
performs no release of the assigned-to handle's previous entry; the
copy-assignment path, by contrast, does release it (entry 7 is erased
and entry 9's count rises to 2).  The claim's requirement that any
assignment onto H decrement E's count therefore fails for move
assignment. -/
theorem claim_C4_code_eval :
    (assignMove [(7, (⟨1, 11⟩ : Entry Nat)), (9, ⟨1, 22⟩)]
        ⟨some 0, 7, 7⟩ ⟨some 0, 9, 9⟩).1 =
      [(7, ⟨1, 11⟩), (9, ⟨1, 22⟩)] ∧
    findEntry (fun a b : Nat => a == b)
      (assignMove [(7, (⟨1, 11⟩ : Entry Nat)), (9, ⟨1, 22⟩)]
        ⟨some 0, 7, 7⟩ ⟨some 0, 9, 9⟩).1 7 = some ⟨1, 11⟩ ∧
    assignCopy (fun a b : Nat => a == b)
        [(7, (⟨1, 11⟩ : Entry Nat)), (9, ⟨1, 22⟩)]
        ⟨some 0, 7, 7⟩ ⟨some 0, 9, 9⟩ =
      some ([(9, ⟨2, 22⟩)], ⟨some 0, 9, 9⟩) := by
  refine ⟨rfl, rfl, ?_⟩
  decide

/-! ## Claim C5 -/

/-- Claim C5 evaluated on the code (code bug): self-copy-assignment of the
only live handle for key 7 (its entry's referenceCount is 1) first
releases — the count reaches zero and the entry is erased on the spot —
and the subsequent acquire of the same key then hits the fatal "Cache is
somehow missing entry" precondition inside `at` (modelled `none`); the
count is not left unchanged as the claim requires.  With
referenceCount 2 the same self-assignment is harmless (decrement then
increment, net unchanged). -/
theorem claim_C5_code_eval :
    assignCopy (fun a b : Nat => a == b) [(7, (⟨1, 11⟩ : Entry Nat))]
      ⟨some 0, 7, 7⟩ ⟨some 0, 7, 7⟩ = none ∧
    assignCopy (fun a b : Nat => a == b) [(7, (⟨2, 11⟩ : Entry Nat))]
      ⟨some 0, 7, 7⟩ ⟨some 0, 7, 7⟩ =
      some ([(7, ⟨2, 11⟩)], ⟨some 0, 7, 7⟩) := by
  decide

/-! ## Claim C7 -/

/-- Specialization used to evaluate `getProgram` on the miss path. -/
def spec7 : Specialization :=
  ⟨⟨some 0, 5, hashU64 5⟩, 3, [⟨1, 2⟩], [[⟨"x", 4⟩]]⟩

/-- Claim C7 evaluated on the code (code bug): on a program-cache miss the
factory does not invoke backend compilation — it unconditionally returns
the default-constructed (null) `Program{}` — so `getProgram` always
succeeds, inserts that null program as a cache entry with
referenceCount 1, and the priority hint changes nothing; no compilation
failure path exists. -/
theorem claim_C7_code_eval :
    (getProgram [] spec7 .high).result =
      some (⟨some 1, spec7, Specialization.hashOf spec7⟩, defaultProgram) ∧
    (getProgram [] spec7 .high).map = [(spec7, ⟨1, defaultProgram⟩)] ∧
    (getProgram [] spec7 .high).factoryInvoked = true ∧
    getProgram [] spec7 .low = getProgram [] spec7 .high :=
  ⟨rfl, rfl, rfl, rfl⟩

/-! ## Claim C6 -/

/-- Claim C6 counterexample: for a payload whose parse result is
`ERROR_MISSING_BACKEND`, `getDefinition` runs into the fatal
`FILAMENT_CHECK_POSTCONDITION` inside `createParser` (process abort) —
not the "no result without aborting" empty optional the claim
requires. -/
theorem claim_C6_counterexample :
    getDefinition ⟨Backend.concrete, true, 1⟩ 1
      ⟨ParseResult.errorMissingBackend, true, 7, 1, 0, 2⟩ 0 [] =
      Fatalable.fatal :=
  rfl

/-- Claim C6 amended: `getDefinition` surfaces a cache-id extraction
failure, a checksum mismatch and a shader-model mismatch as "no result"
with the cache state unchanged (no entry created); but a missing-backend
parse result (on any backend), any other parse failure on a non-NOOP
backend, and a material-version mismatch on a non-NOOP backend are fatal
postcondition failures (process abort), not empty optionals. -/
theorem claim_C6_amended :
    (∀ (eng : Engine) (mv : Nat) (p : ParserData) (crc : Nat)
      (m : CMap Nat MaterialDefinition),
      createParser eng.backend mv p = .ok p → p.cacheIdOk = false →
      getDefinition eng mv p crc m =
        .ok { result := none, map := m, factoryInvoked := false }) ∧
    (∀ (eng : Engine) (mv : Nat) (p : ParserData) (crc : Nat)
      (m : CMap Nat MaterialDefinition),
      createParser eng.backend mv p = .ok p → p.cacheIdOk = true →
      eng.checkCrc32AfterLoading = true → p.materialCrc32 ≠ crc →
      findEntry (fun a b : Nat => a == b) m p.cacheId = none →
      getDefinition eng mv p crc m =
        .ok { result := none, map := m, factoryInvoked := true }) ∧
    (∀ (eng : Engine) (mv : Nat) (p : ParserData) (crc : Nat)
      (m : CMap Nat MaterialDefinition),
      createParser eng.backend mv p = .ok p → p.cacheIdOk = true →
      p.shaderModels.testBit eng.shaderModel = false →
      (eng.checkCrc32AfterLoading = true → p.materialCrc32 = crc) →
      findEntry (fun a b : Nat => a == b) m p.cacheId = none →
      getDefinition eng mv p crc m =
        .ok { result := none, map := m, factoryInvoked := true }) ∧
    (∀ (eng : Engine) (mv : Nat) (p : ParserData) (crc : Nat)
      (m : CMap Nat MaterialDefinition),
      p.parseResult = .errorMissingBackend →
      getDefinition eng mv p crc m = .fatal) ∧
    (∀ (eng : Engine) (mv : Nat) (p : ParserData) (crc : Nat)
      (m : CMap Nat MaterialDefinition),
      eng.backend = .concrete → p.parseResult = .errorOther →
      getDefinition eng mv p crc m = .fatal) ∧
    (∀ (eng : Engine) (mv : Nat) (p : ParserData) (crc : Nat)
      (m : CMap Nat MaterialDefinition),
      eng.backend = .concrete → p.parseResult = .success →
      p.materialVersion ≠ mv →
      getDefinition eng mv p crc m = .fatal) := by
  refine ⟨?_, ?_, ?_, ?_, ?_, ?_⟩
  · intro eng mv p crc m hcp hcid
    simp [getDefinition, hcp, hcid]
  · intro eng mv p crc m hcp hcid hflag hcrc hfind
    have hd : decide (p.materialCrc32 ≠ crc) = true := decide_eq_true hcrc
    simp [getDefinition, hcp, hcid, Impl.get, hfind,
      MaterialDefinition.create, hflag, hd]
  · intro eng mv p crc m hcp hcid hsm hcrci hfind
    cases hflag : eng.checkCrc32AfterLoading with
    | false =>
      simp [getDefinition, hcp, hcid, Impl.get, hfind,
        MaterialDefinition.create, hflag, hsm]
    | true =>
      have hd : decide (p.materialCrc32 ≠ crc) = false :=
        decide_eq_false (by simp [hcrci hflag])
      simp [getDefinition, hcp, hcid, Impl.get, hfind,
        MaterialDefinition.create, hflag, hd, hsm]
  · intro eng mv p crc m hp
    simp [getDefinition, createParser, hp]
  · intro eng mv p crc m hb hp
    simp [getDefinition, createParser, hb, hp]
  · intro eng mv p crc m hb hp hv
    simp [getDefinition, createParser, hb, hp, hv]

/-- Witness for the amended claim C6 at concrete inputs, one per path. -/
theorem claim_C6_amended_witness :
    getDefinition ⟨Backend.noop, false, 0⟩ 1
        ⟨ParseResult.success, false, 7, 1, 0, 2⟩ 0 [] =
      .ok { result := none, map := [], factoryInvoked := false } ∧
    getDefinition ⟨Backend.concrete, true, 1⟩ 1
        ⟨ParseResult.success, true, 7, 1, 5, 2⟩ 6 [] =
      .ok { result := none, map := [], factoryInvoked := true } ∧
    getDefinition ⟨Backend.concrete, false, 3⟩ 1
        ⟨ParseResult.success, true, 7, 1, 5, 2⟩ 6 [] =
      .ok { result := none, map := [], factoryInvoked := true } ∧
    getDefinition ⟨Backend.noop, true, 0⟩ 1
        ⟨ParseResult.errorMissingBackend, true, 7, 1, 0, 2⟩ 0 [] = .fatal ∧
    getDefinition ⟨Backend.concrete, true, 0⟩ 1
        ⟨ParseResult.errorOther, true, 7, 1, 0, 2⟩ 0 [] = .fatal ∧
    getDefinition ⟨Backend.concrete, true, 0⟩ 1
        ⟨ParseResult.success, true, 7, 2, 0, 2⟩ 0 [] = .fatal :=
  ⟨claim_C6_amended.1 ⟨Backend.noop, false, 0⟩ 1
      ⟨ParseResult.success, false, 7, 1, 0, 2⟩ 0 [] (by decide) (by decide),
    claim_C6_amended.2.1 ⟨Backend.concrete, true, 1⟩ 1
      ⟨ParseResult.success, true, 7, 1, 5, 2⟩ 6 [] (by decide) (by decide)
      (by decide) (by decide) (by decide),
    claim_C6_amended.2.2.1 ⟨Backend.concrete, false, 3⟩ 1
      ⟨ParseResult.success, true, 7, 1, 5, 2⟩ 6 [] (by decide) (by decide)
      (by decide) (by decide) (by decide),
    claim_C6_amended.2.2.2.1 ⟨Backend.noop, true, 0⟩ 1
      ⟨ParseResult.errorMissingBackend, true, 7, 1, 0, 2⟩ 0 [] (by decide),
    claim_C6_amended.2.2.2.2.1 ⟨Backend.concrete, true, 0⟩ 1
      ⟨ParseResult.errorOther, true, 7, 1, 0, 2⟩ 0 [] (by decide) (by decide),
    claim_C6_amended.2.2.2.2.2 ⟨Backend.concrete, true, 0⟩ 1
      ⟨ParseResult.success, true, 7, 2, 0, 2⟩ 0 [] (by decide) (by decide)
      (by decide)⟩

/-! ## Claim C9 -/

/-- Specialization used for the order-sensitivity exhibit (constants in
one order). -/
def specOrdA : Specialization :=
  ⟨⟨some 0, 5, hashU64 5⟩, 3, [⟨1, 10⟩, ⟨2, 20⟩], []⟩

/-- The same specialization with its two constants permuted. -/
def specOrdB : Specialization :=
  ⟨⟨some 0, 5, hashU64 5⟩, 3, [⟨2, 20⟩, ⟨1, 10⟩], []⟩

/-- Claim C9: Specialization equality/hash congruence — two
Specializations are equal iff all four fields compare equal, the embedded
definition handle comparing by (cache identity, key) and never by the
stored hash or the value's address; equal Specializations (whose handles
carry the hash of their key, as every cache-made handle does) hash
identically; and the hash combination is order-sensitive (permuting the
constants changes both equality and, here, the hash). -/
theorem claim_C9 :
    (∀ a b : Specialization, Specialization.eq a b = true ↔
      ((a.definition.impl = b.definition.impl ∧
          a.definition.key = b.definition.key) ∧
        a.variant = b.variant ∧
        a.specializationConstants = b.specializationConstants ∧
        a.pushConstants = b.pushConstants)) ∧
    (∀ g1 g2 : Handle Nat, handleEq g1 g2 = true ↔
      (g1.impl = g2.impl ∧ g1.key = g2.key)) ∧
    (∀ a b : Specialization,
      a.definition.hash = hashU64 a.definition.key →
      b.definition.hash = hashU64 b.definition.key →
      Specialization.eq a b = true →
      Specialization.hashOf a = Specialization.hashOf b) ∧
    (Specialization.eq specOrdA specOrdB = false ∧
      Specialization.hashOf specOrdA ≠ Specialization.hashOf specOrdB) := by
  refine ⟨?_, ?_, ?_, by decide⟩
  · intro a b
    simp [Specialization.eq, handleEq, Bool.and_eq_true, decide_eq_true_eq,
      and_assoc]
  · intro g1 g2
    simp [handleEq, Bool.and_eq_true, decide_eq_true_eq]
  · intro a b ha hb heq
    simp only [Specialization.eq, handleEq, Bool.and_eq_true,
      decide_eq_true_eq] at heq
    obtain ⟨⟨⟨⟨himpl, hkey⟩, hvar⟩, hcon⟩, hpush⟩ := heq
    unfold Specialization.hashOf
    rw [ha, hb, hkey, hvar, hcon, hpush]

/-- Witness for claim C9's congruence part at a concrete pair of
well-formed specializations. -/
theorem claim_C9_witness :
    Specialization.hashOf ⟨⟨some 0, 5, hashU64 5⟩, 3, [⟨1, 10⟩], [[⟨"c", 2⟩]]⟩ =
      Specialization.hashOf ⟨⟨some 0, 5, 5⟩, 3, [⟨1, 10⟩], [[⟨"c", 2⟩]]⟩ :=
  claim_C9.2.2.1 ⟨⟨some 0, 5, hashU64 5⟩, 3, [⟨1, 10⟩], [[⟨"c", 2⟩]]⟩
    ⟨⟨some 0, 5, 5⟩, 3, [⟨1, 10⟩], [[⟨"c", 2⟩]]⟩
    (by decide) (by decide) (by decide)

/-! ## Claim C10 -/

/-- Claim C10: the crc32 verification inside the definition factory is
conditional on the `material.check_crc32_after_loading` feature flag —
with the flag off the factory ignores the payload's crc entirely (a
mismatching payload is accepted whenever the shader model matches, and
via `getDefinition` the resulting definition is inserted into the cache
with referenceCount 1); with the flag on a crc mismatch yields no
value. -/
theorem claim_C10 :
    (∀ (crc sm : Nat) (p : ParserData),
      MaterialDefinition.create false crc sm p =
        (if !(p.shaderModels.testBit sm) then none else some ⟨p.cacheId⟩)) ∧
    (∀ (crc sm : Nat) (p : ParserData), p.materialCrc32 ≠ crc →
      p.shaderModels.testBit sm = true →
      MaterialDefinition.create false crc sm p = some ⟨p.cacheId⟩) ∧
    (∀ (crc sm : Nat) (p : ParserData), p.materialCrc32 ≠ crc →
      MaterialDefinition.create true crc sm p = none) ∧
    (∀ (eng : Engine) (mv : Nat) (p : ParserData) (crc : Nat)
      (m : CMap Nat MaterialDefinition),
      eng.checkCrc32AfterLoading = false →
      createParser eng.backend mv p = .ok p → p.cacheIdOk = true →
      p.materialCrc32 ≠ crc →
      p.shaderModels.testBit eng.shaderModel = true →
      findEntry (fun a b : Nat => a == b) m p.cacheId = none →
      getDefinition eng mv p crc m =
        .ok { result := some (⟨some 0, p.cacheId, hashU64 p.cacheId⟩,
                ⟨p.cacheId⟩)
              map := (p.cacheId, ⟨1, ⟨p.cacheId⟩⟩) :: m
              factoryInvoked := true }) := by
  refine ⟨?_, ?_, ?_, ?_⟩
  · intro crc sm p
    simp [MaterialDefinition.create]
  · intro crc sm p _ h2
    simp [MaterialDefinition.create, h2]
  · intro crc sm p h1
    have hd : decide (p.materialCrc32 ≠ crc) = true := decide_eq_true h1
    simp [MaterialDefinition.create, hd]
  · intro eng mv p crc m hflag hcp hcid hcrc hsm hfind
    simp [getDefinition, hcp, hcid, Impl.get, hfind,
      MaterialDefinition.create, hflag, hsm]

/-- Witness for claim C10 at a concrete payload whose stored crc (5) does
not match the payload's computed crc (6). -/
theorem claim_C10_witness :
    MaterialDefinition.create false 6 1 ⟨ParseResult.success, true, 7, 1, 5, 2⟩ =
      (if !((2 : Nat).testBit 1) then none else some ⟨7⟩) ∧
    MaterialDefinition.create false 6 1 ⟨ParseResult.success, true, 7, 1, 5, 2⟩ =
      some ⟨7⟩ ∧
    MaterialDefinition.create true 6 1 ⟨ParseResult.success, true, 7, 1, 5, 2⟩ =
      none ∧
    getDefinition ⟨Backend.concrete, false, 1⟩ 1
        ⟨ParseResult.success, true, 7, 1, 5, 2⟩ 6 [] =
      .ok { result := some (⟨some 0, 7, hashU64 7⟩, ⟨7⟩)
            map := [(7, ⟨1, ⟨7⟩⟩)]
            factoryInvoked := true } :=
  ⟨claim_C10.1 6 1 ⟨ParseResult.success, true, 7, 1, 5, 2⟩,
    claim_C10.2.1 6 1 ⟨ParseResult.success, true, 7, 1, 5, 2⟩ (by decide)
      (by decide),
    claim_C10.2.2.1 6 1 ⟨ParseResult.success, true, 7, 1, 5, 2⟩ (by decide),
    claim_C10.2.2.2 ⟨Backend.concrete, false, 1⟩ 1
      ⟨ParseResult.success, true, 7, 1, 5, 2⟩ 6 [] (by decide) (by decide)
      (by decide) (by decide) (by decide) (by decide)⟩

end Filament
